import Mathlib

/-!
Verification of the kompo-vfs in-process virtual filesystem

Shallow embedding of the `kompo_storage` path-trie file store and the
`kompo_fs` syscall-dispatch glue (crates `kompo_storage` and `kompo_fs`),
together with proofs checking the natural-language specification against it.

Modelling conventions:
* path segments are `String`s; a path is the list of segments produced by
  Rust's `Path::iter` (which yields a leading `"/"` segment for absolute
  paths, exactly as `initialize_fs` stores the bundled keys);
* file contents are `List Nat` (byte lists);
* the `trie_rs` trie is embedded as the association list of its entries in
  trie (lexicographic) order; `exact_match` is key lookup and
  `predictive_search` is the sub-list of entries whose key extends the query;
* the `FxHasher`-derived inode is an abstract component `inode` of the store:
  only equality of hash values is semantically relevant (the spec itself
  treats collisions as negligible), so the store carries the hash function
  and concrete instances supply an injective-on-their-inputs encoding;
* `libc::dup(0)` and the real (forwarded) syscalls are external inputs and
  appear as explicit parameters (`newFd`, `realRet`, ...);
* Rust panics (`unwrap` of an absent working directory, `todo!()`,
  `unreachable!()`) are explicit result constructors / `Except.error`.
-/

/-- A path segment (one `OsStr` component as produced by `Path::iter`). -/
abbrev Seg := String

/-- A path as a segment sequence (a trie key). -/
abbrev SegPath := List Seg

/-- File contents: a byte list (embeds the `&[u8]` slice into `FILES`). -/
abbrev Content := List Nat

/-- Embeds `kompo_storage::FileType`: a registered descriptor is either an open
file (content slice, read offset, inode) or a directory (inode plus the
list of immediate-child paths computed by classification). -/
inductive FileType where
  | file (content : Content) (off : Nat) (ino : Nat)
  | directory (ino : Nat) (entries : List SegPath)
deriving DecidableEq

/-- Embeds `kompo_storage::FsDir`: a directory stream, a virtual fd plus cursor. -/
structure FsDir where
  fd : Int
  off : Nat
deriving DecidableEq

/-- Embeds `kompo_storage::Fs`: the immutable trie of bundled entries (kept in trie
order), the inode hash function, and the fd registry `fd_map`. -/
structure Fs where
  trie : List (SegPath × Content)
  inode : SegPath → Nat
  fdMap : List (Int × FileType)

/-- Embeds `trie_rs` `exact_match`: look the key up in the trie. -/
def exactMatch : List (SegPath × Content) → SegPath → Option Content
  | [], _ => none
  | (q, c) :: rest, p => if q = p then some c else exactMatch rest p

/-- Embeds `trie_rs` `predictive_search`: every entry whose key has the query as a
segment-sequence prefix, in trie order. -/
def predictiveSearch (t : List (SegPath × Content)) (p : SegPath) :
    List (SegPath × Content) :=
  t.filter (fun e => p.isPrefixOf e.1)

/-- Association-list lookup for the fd registry (`HashMap::get`). -/
def fdLookup : List (Int × FileType) → Int → Option FileType
  | [], _ => none
  | (k, v) :: rest, fd => if k = fd then some v else fdLookup rest fd

/-- Association-list insert/overwrite for the fd registry
(`HashMap::insert`, and in-place mutation through `get_mut`). -/
def fdInsert : List (Int × FileType) → Int → FileType → List (Int × FileType)
  | [], fd, ft => [(fd, ft)]
  | (k, v) :: rest, fd, ft =>
    if k = fd then (fd, ft) :: rest else (k, v) :: fdInsert rest fd ft

/-- Association-list removal (`HashMap::remove`). -/
def fdRemove : List (Int × FileType) → Int → List (Int × FileType)
  | [], _ => []
  | (k, v) :: rest, fd => if k = fd then rest else (k, v) :: fdRemove rest fd

/-- The `filter_map` body of `Fs::get_file_type_from_path`'s directory
branch: walk the predictive-search results carrying the `uniq_file` set of
already-seen inode hashes; a descendant deep enough contributes its
truncation to `depth` segments unless the hash of its FULL path was seen. -/
def collectEntries (inode : SegPath → Nat) (depth : Nat) :
    List (SegPath × Content) → List Nat → List SegPath
  | [], _ => []
  | (p, _) :: rest, seen =>
    if depth ≤ p.length then
      let id := inode p
      if id ∈ seen then collectEntries inode depth rest seen
      else p.take depth :: collectEntries inode depth rest (id :: seen)
    else collectEntries inode depth rest seen

/-- Embeds `Fs::get_file_type_from_path` (classification): an exact trie hit is a
`File` with offset 0; otherwise the descendants at depth `len + 1` form a
`Directory` when non-empty; otherwise the path is absent. -/
def getFileTypeFromPath (fs : Fs) (searchPath : SegPath) : Option FileType :=
  match exactMatch fs.trie searchPath with
  | some file => some (.file file 0 (fs.inode searchPath))
  | none =>
    let depth := searchPath.length + 1
    let entries :=
      collectEntries fs.inode depth (predictiveSearch fs.trie searchPath) []
    if entries.isEmpty then none
    else some (.directory (fs.inode searchPath) entries)

/-- Embeds `Fs::is_fd_exists`. -/
def Fs.isFdExists (fs : Fs) (fd : Int) : Bool :=
  (fdLookup fs.fdMap fd).isSome

/-- Embeds `Fs::is_dir_exists`. -/
def Fs.isDirExists (fs : Fs) (dir : FsDir) : Bool :=
  fs.isFdExists dir.fd

/-- Embeds `Fs::is_dir_exists_from_path`. -/
def Fs.isDirExistsFromPath (fs : Fs) (p : SegPath) : Bool :=
  match getFileTypeFromPath fs p with
  | some (.directory _ _) => true
  | _ => false

/-- Embeds `Fs::open`: classify; on a hit, register the file type under the fd
obtained from `libc::dup(0)` (external, passed as `newFd`). -/
def Fs.open (fs : Fs) (newFd : Int) (p : SegPath) : Option (Int × Fs) :=
  match getFileTypeFromPath fs p with
  | some ft => some (newFd, { fs with fdMap := fdInsert fs.fdMap newFd ft })
  | none => none

/-- Result of `Fs::read`: `ok` carries the returned byte count, the bytes
copied into the caller buffer's prefix, and the updated store; `absent`
embeds the `None` of an unknown fd; `panics` embeds the `todo!()` hit on a
`Directory` entry. -/
inductive ReadResult where
  | ok (n : Nat) (copied : Content) (fs : Fs)
  | absent
  | panics

/-- Embeds `Fs::read`: on a `File`, end-of-file returns 0; otherwise copy
`min(len - offset, buf.len())` bytes from the current offset, advance the
offset, and return the count.  A `Directory` entry hits `todo!()`.
The caller's buffer is represented by its length `bufLen`. -/
def Fs.read (fs : Fs) (fd : Int) (bufLen : Nat) : ReadResult :=
  match fdLookup fs.fdMap fd with
  | some (.file file off ino) =>
    if off = file.length then .ok 0 [] fs
    else
      let readSize := min (file.length - off) bufLen
      .ok readSize ((file.drop off).take readSize)
        { fs with fdMap := fdInsert fs.fdMap fd (.file file (off + readSize) ino) }
  | some (.directory _ _) => .panics
  | none => .absent

/-- Embeds `Fs::close`: drop the registry entry if present, return 0. -/
def Fs.close (fs : Fs) (fd : Int) : Int × Fs :=
  (0, { fs with fdMap := fdRemove fs.fdMap fd })

/-- Rust `usize::div_ceil`. -/
def rustDivCeil (a b : Nat) : Nat :=
  a / b + if a % b = 0 then 0 else 1

/-- Embeds `libc::makedev` (Linux): pack major/minor into a device number. -/
def lcMakedev (ma mi : Nat) : Nat :=
  ((ma &&& 0xfff) <<< 8) ||| ((ma &&& 0xfffff000) <<< 32) |||
    (mi &&& 0xff) ||| ((mi &&& 0xffffff00) <<< 12)

/-- Embeds `Fs::DEV`, the fixed synthetic device number `makedev(2222, 0)`. -/
def kompoDev : Nat := lcMakedev 2222 0

def sIFMT : Nat := 0o170000
def sIFREG : Nat := 0o100000
def sIFDIR : Nat := 0o040000
def sIRUSR : Nat := 0o400
def sIWUSR : Nat := 0o200
def sIXUSR : Nat := 0o100
def sIRGRP : Nat := 0o40
def sIXGRP : Nat := 0o10
def sIROTH : Nat := 0o4
def sIXOTH : Nat := 0o1
def dtREG : Nat := 8
def dtDIR : Nat := 4
def eNOENT : Nat := 2
def eNOTDIR : Nat := 20
def eFAULT : Nat := 14
def oDIRECTORY : Nat := 0o200000

/-- The populated fields of `libc::stat` (all numeric). -/
structure StatBuf where
  st_dev : Nat
  st_ino : Nat
  st_mode : Nat
  st_nlink : Nat
  st_uid : Nat
  st_gid : Nat
  st_rdev : Nat
  st_size : Nat
  st_blksize : Nat
  st_blocks : Nat
  st_atime : Nat
  st_atime_nsec : Nat
  st_mtime : Nat
  st_mtime_nsec : Nat
  st_ctime : Nat
  st_ctime_nsec : Nat
deriving DecidableEq

/-- Embeds `Fs::get_stat_from_file_type`; the caller's real uid/gid come from the
`libc::getuid` / `libc::getgid` syscalls and are passed as parameters. -/
def getStatFromFileType (uid gid : Nat) : FileType → StatBuf
  | .file file _ ino =>
    { st_dev := kompoDev
      st_ino := ino
      st_mode := sIFREG ||| sIRUSR ||| sIRGRP ||| sIROTH
      st_nlink := 1
      st_uid := uid
      st_gid := gid
      st_rdev := 0
      st_size := file.length
      st_blksize := 4096
      st_blocks := rustDivCeil (rustDivCeil file.length 512) 8 * 8
      st_atime := 0
      st_atime_nsec := 0
      st_mtime := 0
      st_mtime_nsec := 0
      st_ctime := 0
      st_ctime_nsec := 0 }
  | .directory ino _ =>
    { st_dev := kompoDev
      st_ino := ino
      st_mode := sIFDIR ||| sIXUSR ||| sIRUSR ||| sIXGRP ||| sIRGRP ||| sIXOTH ||| sIROTH
      st_nlink := 1
      st_uid := uid
      st_gid := gid
      st_rdev := 0
      st_size := 1
      st_blksize := 4096
      st_blocks := 0
      st_atime := 0
      st_atime_nsec := 0
      st_mtime := 0
      st_mtime_nsec := 0
      st_ctime := 0
      st_ctime_nsec := 0 }

/-- Embeds `Fs::stat` (storage layer): classify and, on a hit, fill a stat buffer;
modelled as returning the filled buffer instead of writing through a
pointer. -/
def Fs.stat (fs : Fs) (uid gid : Nat) (p : SegPath) : Option StatBuf :=
  (getFileTypeFromPath fs p).map (getStatFromFileType uid gid)

/-- Embeds `Fs::lstat` aliases `Fs::stat` (no symlinks inside the bundle). -/
def Fs.lstat (fs : Fs) (uid gid : Nat) (p : SegPath) : Option StatBuf :=
  fs.stat uid gid p

/-- Embeds `Fs::fstat`: stat buffer from the registered file type of the fd. -/
def Fs.fstat (fs : Fs) (uid gid : Nat) (fd : Int) : Option StatBuf :=
  (fdLookup fs.fdMap fd).map (getStatFromFileType uid gid)

/-- Embeds `Fs::fdopendir`: the fd must already be registered as a `Directory`. -/
def Fs.fdopendir (fs : Fs) (fd : Int) : Option FsDir :=
  match fdLookup fs.fdMap fd with
  | some (.directory _ _) => some ⟨fd, 0⟩
  | _ => none

/-- Embeds `Fs::opendir`: classify; only a `Directory` result is registered (under
the fresh fd from `dup(0)`) and handed back as a stream with cursor 0. -/
def Fs.opendir (fs : Fs) (newFd : Int) (p : SegPath) : Option (FsDir × Fs) :=
  match getFileTypeFromPath fs p with
  | some (.directory ino entries) =>
    some (⟨newFd, 0⟩,
      { fs with fdMap := fdInsert fs.fdMap newFd (.directory ino entries) })
  | _ => none

/-- The populated fields of a `libc::dirent` produced by
`Fs::create_dirent`; the name is the final segment of the child path
(`d_off`/`d_reclen` are left 0 in the source and elided here, and the
fixed-size name buffer is modelled as the name string). -/
structure DirentM where
  d_ino : Nat
  d_type : Nat
  d_name : Seg
deriving DecidableEq

/-- Result of `Fs::readdir`: `notDir` embeds the `None` of an fd that is not
a registered directory, `endOfDir` the null sentinel past the last entry,
`entry` a heap-allocated dirent, and `panics` the `unreachable!()` hit when
a stored child path no longer classifies. -/
inductive ReaddirRes where
  | notDir
  | endOfDir
  | entry (d : DirentM)
  | panics
deriving DecidableEq

/-- Embeds `Fs::readdir`: at cursor `off`, classify the stored child path to get
its `d_type`, build the dirent from its inode and basename, and
post-increment the cursor; past the end return the null sentinel. -/
def Fs.readdir (fs : Fs) (dir : FsDir) : ReaddirRes × FsDir :=
  match fdLookup fs.fdMap dir.fd with
  | some (.directory _ entries) =>
    if h : dir.off < entries.length then
      let fullPath := entries.get ⟨dir.off, h⟩
      match getFileTypeFromPath fs fullPath with
      | some (.file _ _ _) =>
        (.entry ⟨fs.inode fullPath, dtREG, fullPath.getLastD ""⟩,
          ⟨dir.fd, dir.off + 1⟩)
      | some (.directory _ _) =>
        (.entry ⟨fs.inode fullPath, dtDIR, fullPath.getLastD ""⟩,
          ⟨dir.fd, dir.off + 1⟩)
      | none => (.panics, dir)
    else (.endOfDir, dir)
  | _ => (.notDir, dir)

/-- Embeds `Fs::closedir`: close the stream's fd. -/
def Fs.closedir (fs : Fs) (dir : FsDir) : Int × Fs :=
  fs.close dir.fd

/-- Embeds `Fs::rewinddir`: reset the cursor. -/
def Fs.rewinddir (dir : FsDir) : FsDir :=
  ⟨dir.fd, 0⟩

/-!
Path canonicalization (`kompo_fs::util`)

Rust `Path` values are embedded as `String`s; `Path::components()` is
re-implemented below on the character list (split on `/`, a leading `/`
becomes `RootDir`, `..` becomes `ParentDir`, and `.` is normalized away
except at the very beginning of a relative path).
-/

/-- A Rust `std::path::Component` (the `Prefix` variant is Windows-only and
unreachable on the targets the crate builds for). -/
inductive Comp where
  | rootDir
  | curDir
  | parentDir
  | normal (s : Seg)
deriving DecidableEq

/-- Split a character list on `/`. -/
def splitSlash (cur : List Char) : List Char → List (List Char)
  | [] => [cur.reverse]
  | c :: rest =>
    if c = '/' then cur.reverse :: splitSlash [] rest
    else splitSlash (c :: cur) rest

/-- The non-empty `/`-separated chunks of a path string. -/
def pathChunks (s : String) : List Seg :=
  ((splitSlash [] s.data).filter (· ≠ [])).map List.asString

/-- First byte is `/`: embeds both the glue dispatchers' `*path != b'/'`
test and `Path::is_absolute` (which on Unix is `has_root`). Both agree,
including on the empty string. -/
def isAbsolute (s : String) : Bool :=
  match s.data with
  | c :: _ => c = '/'
  | [] => false

/-- Map the chunks after the leading position: `.` is normalized away. -/
def compsOfChunks : List Seg → List Comp
  | [] => []
  | c :: rest =>
    if c = "." then compsOfChunks rest
    else if c = ".." then .parentDir :: compsOfChunks rest
    else .normal c :: compsOfChunks rest

/-- Rust `Path::components()`: root first when absolute; a leading `.` of a
relative path is kept as `CurDir`; other `.` chunks are normalized away. -/
def pathComponents (s : String) : List Comp :=
  let chunks := pathChunks s
  if isAbsolute s then Comp.rootDir :: compsOfChunks chunks
  else
    match chunks with
    | c :: rest =>
      if c = "." then Comp.curDir :: compsOfChunks rest
      else compsOfChunks chunks
    | [] => []

/-- Rust `Path::iter()`: the components rendered back as `OsStr` segments
(`RootDir` renders as `"/"`).  `initialize_fs` and every glue dispatcher
build their trie keys through this. -/
def pathIter (s : String) : SegPath :=
  (pathComponents s).map fun c =>
    match c with
    | .rootDir => "/"
    | .curDir => "."
    | .parentDir => ".."
    | .normal seg => seg

/-- The segments of an absolute `PathBuf` (the `"/"` root is implicit). -/
def absSegs (s : String) : List Seg :=
  (pathComponents s).filterMap fun c =>
    match c with
    | .normal seg => some seg
    | _ => none

/-- Render an absolute `PathBuf` from its segments. -/
def renderAbs (segs : List Seg) : String :=
  "/" ++ String.intercalate "/" segs

/-- Embeds `util::canonicalize_path`: fold the joined path's components onto the
base ( `Normal` pushes, `ParentDir` pops — a no-op at the root —, `CurDir`
and `RootDir` do nothing). -/
def canonicalizePath (base : List Seg) : List Comp → List Seg
  | [] => base
  | .normal seg :: rest => canonicalizePath (base ++ [seg]) rest
  | .parentDir :: rest => canonicalizePath base.dropLast rest
  | .rootDir :: rest => canonicalizePath base rest
  | .curDir :: rest => canonicalizePath base rest

/-- Embeds `util::expand_kompo_path`: an absolute path is returned verbatim (it is
only round-tripped through `PathBuf::from_str` / `CString::new`); a
relative path is canonicalized against the virtual working directory,
whose absence makes the `unwrap` panic (`Except.error`). -/
def expandKompoPath (workingDir : Option String) (p : String) :
    Except Unit String :=
  if isAbsolute p then .ok p
  else
    match workingDir with
    | none => .error ()
    | some wd => .ok (renderAbs (canonicalizePath (absSegs wd) (pathComponents p)))

/-- Modelled from the spec: the spec's description of the canonicalizer on
an absolute input — "the result is `P` with `.` and `..` resolved
lexically; any root-component inside `P` is ignored after the first" —
for comparison with `expandKompoPath`'s absolute branch. -/
def specCanonAbs (p : String) : String :=
  renderAbs (canonicalizePath [] (pathComponents p))

/-!
Syscall dispatch glue (`kompo_fs::glue`)

Process-wide state (`WORKING_DIR`, the trie singleton) is carried in a
`GlueState` together with the bundle's virtual-root prefix symbol `WD`.
Forwarding to the next dynamic-library symbol is external and appears as a
`real...` parameter holding the verbatim result the real call would return.
Errno-setting is modelled by pairing the return value with `Option Nat`.
The `FILE_TYPE_CACHE` read-through memo in `stat`/`lstat` caches the
deterministic stat buffer of an immutable trie and is semantically
transparent, so it is elided.
-/

/-- The dispatch-relevant process state: the `WD` bundle symbol (virtual
root prefix), `WORKING_DIR`, and the trie/registry singleton. -/
structure GlueState where
  wdPre : String
  workingDir : Option String
  fs : Fs

/-- Embeds `util::is_under_kompo_working_dir`: byte-prefix test against `WD`. -/
def isUnderKompoWd (st : GlueState) (p : String) : Bool :=
  st.wdPre.data.isPrefixOf p.data

/-- The body of `open_from_fs::inner_open`. -/
def innerOpen (st : GlueState) (uid gid : Nat) (newFd : Int) (p : String)
    (oflag : Nat) : Int × Option Nat × GlueState :=
  let pathVec := pathIter p
  if oflag &&& oDIRECTORY = oDIRECTORY then
    match st.fs.stat uid gid pathVec with
    | some statBuf =>
      if statBuf.st_mode &&& sIFMT = sIFDIR then
        match st.fs.open newFd pathVec with
        | some (fd, fs') => (fd, none, { st with fs := fs' })
        | none => (-1, some eNOENT, st)
      else (-1, some eNOTDIR, st)
    | none => (-1, some eNOENT, st)
  else
    match st.fs.open newFd pathVec with
    | some (fd, fs') => (fd, none, { st with fs := fs' })
    | none => (-1, some eNOENT, st)

/-- Embeds `glue::open_from_fs`: route to `inner_open` when (working dir set and
the path relative — after expansion) or the path is under `WD`; otherwise
forward (`realRet` is the real `open`'s result). -/
def openFromFs (st : GlueState) (uid gid : Nat) (newFd realRet : Int)
    (p : String) (oflag : Nat) : Except Unit (Int × Option Nat × GlueState) :=
  if st.workingDir.isSome && !(isAbsolute p) then do
    let ep ← expandKompoPath st.workingDir p
    pure (innerOpen st uid gid newFd ep oflag)
  else if isUnderKompoWd st p then pure (innerOpen st uid gid newFd p oflag)
  else pure (realRet, none, st)

/-- The return-code/errno view of `stat_from_fs::inner_stat` (the stat
buffer written through the out-pointer is `Fs.stat`'s, proved separately;
the non-null out-buffer of the `mkdir` caller is assumed). -/
def innerStatRet (fs : Fs) (p : String) : Int × Option Nat :=
  match getFileTypeFromPath fs (pathIter p) with
  | some _ => (0, none)
  | none => (-1, some eNOENT)

/-- Embeds `glue::stat_from_fs` at the return-code level; `realStat` is the real
`stat`'s verbatim result. -/
def statFromFsRet (st : GlueState) (realStat : Int × Option Nat)
    (p : String) : Except Unit (Int × Option Nat) :=
  if st.workingDir.isSome && !(isAbsolute p) then do
    let ep ← expandKompoPath st.workingDir p
    pure (innerStatRet st.fs ep)
  else if isUnderKompoWd st p then pure (innerStatRet st.fs p)
  else pure realStat

/-- Embeds `glue::lstat_from_fs` at the return-code level (`trie.lstat` aliases
`trie.stat`). -/
def lstatFromFsRet (st : GlueState) (realLstat : Int × Option Nat)
    (p : String) : Except Unit (Int × Option Nat) :=
  if st.workingDir.isSome && !(isAbsolute p) then do
    let ep ← expandKompoPath st.workingDir p
    pure (innerStatRet st.fs ep)
  else if isUnderKompoWd st p then pure (innerStatRet st.fs p)
  else pure realLstat

/-- Embeds `glue::chdir_from_fs::inner_chdir`: when the (already expanded) path is
a virtual directory, store it as the working directory and return 1;
otherwise return -1. -/
def innerChdir (st : GlueState) (changeDir : String) : Int × GlueState :=
  if st.fs.isDirExistsFromPath (pathIter changeDir) then
    (1, { st with workingDir := some changeDir })
  else (-1, st)

/-- Embeds `glue::chdir_from_fs`: the path is expanded UNCONDITIONALLY (so a
relative path with no working directory set panics in the `unwrap`);
when the expansion lands under `WD`, `inner_chdir` runs, otherwise the real
`chdir` is forwarded (with the original path) and, on 0, the virtual
working directory is cleared. -/
def chdirFromFs (st : GlueState) (realRet : Int) (p : String) :
    Except Unit (Int × GlueState) := do
  let changeDir ← expandKompoPath st.workingDir p
  if isUnderKompoWd st changeDir then pure (innerChdir st changeDir)
  else if realRet = 0 then pure (realRet, { st with workingDir := none })
  else pure (realRet, st)

/-- Embeds `glue::opendir_from_fs`: the returned `DIR*` is modelled as
`Option FsDir` (`none` is the null pointer); `realDir` is the real
`opendir`'s verbatim result. -/
def opendirFromFs (st : GlueState) (newFd : Int) (realDir : Option FsDir)
    (p : String) : Except Unit (Option FsDir × GlueState) :=
  if st.workingDir.isSome && !(isAbsolute p) then do
    let ep ← expandKompoPath st.workingDir p
    match st.fs.opendir newFd (pathIter ep) with
    | some (dir, fs') => pure (some dir, { st with fs := fs' })
    | none => pure (none, st)
  else if isUnderKompoWd st p then
    match st.fs.opendir newFd (pathIter p) with
    | some (dir, fs') => pure (some dir, { st with fs := fs' })
    | none => pure (none, st)
  else pure (realDir, st)

/-- Embeds `glue::mkdir_from_fs::inner_mkdir`: stat the path through the
`stat_from_fs` dispatcher; 0 when it succeeds, else `ENOENT`. -/
def innerMkdir (st : GlueState) (realStat : Int × Option Nat) (p : String) :
    Except Unit (Int × Option Nat) := do
  let (ret, _) ← statFromFsRet st realStat p
  if ret = 0 then pure (0, none)
  else pure (-1, some eNOENT)

/-- Embeds `glue::mkdir_from_fs`: virtual routing as for `stat`; outside the
virtual domain the real `mkdir`'s result `realMkdir` is returned. -/
def mkdirFromFs (st : GlueState) (realStat realMkdir : Int × Option Nat)
    (p : String) : Except Unit (Int × Option Nat) :=
  if st.workingDir.isSome && !(isAbsolute p) then do
    let ep ← expandKompoPath st.workingDir p
    innerMkdir st realStat ep
  else if isUnderKompoWd st p then innerMkdir st realStat p
  else pure realMkdir

/-!
Spec-side definitions, read sequences, and concrete instances
-/

/-- Round up to a multiple of 8 (the spec's words for the block count). -/
def roundUpMult8 (n : Nat) : Nat :=
  if n % 8 = 0 then n else n + (8 - n % 8)

/-- Modelled from the spec: the §4.2 `stat_of` description — synthetic
device; derived inode; mode `S_IFREG|0444` / `S_IFDIR|0555`; nlink 1; the
caller's uid/gid; rdev 0; size = content length or 1; blksize 4096;
blocks = ceil(size/512) rounded up to a multiple of 8 for files, 0 for
directories; all timestamps zero.  For comparison with
`getStatFromFileType`. -/
def specStatOf (uid gid : Nat) : FileType → StatBuf
  | .file file _ ino =>
    { st_dev := kompoDev
      st_ino := ino
      st_mode := sIFREG ||| 0o444
      st_nlink := 1
      st_uid := uid
      st_gid := gid
      st_rdev := 0
      st_size := file.length
      st_blksize := 4096
      st_blocks := roundUpMult8 ((file.length + 511) / 512)
      st_atime := 0
      st_atime_nsec := 0
      st_mtime := 0
      st_mtime_nsec := 0
      st_ctime := 0
      st_ctime_nsec := 0 }
  | .directory ino _ =>
    { st_dev := kompoDev
      st_ino := ino
      st_mode := sIFDIR ||| 0o555
      st_nlink := 1
      st_uid := uid
      st_gid := gid
      st_rdev := 0
      st_size := 1
      st_blksize := 4096
      st_blocks := 0
      st_atime := 0
      st_atime_nsec := 0
      st_mtime := 0
      st_mtime_nsec := 0
      st_ctime := 0
      st_ctime_nsec := 0 }

/-- Consecutive, non-overlapping chunks of `c`: the chunk for each count in
`ns` starts where the previous one ended. -/
def chunksFrom (c : Content) : Nat → List Nat → List Content
  | _, [] => []
  | off, n :: ns => (c.drop off).take n :: chunksFrom c (off + n) ns

/-- Iterate `Fs::read` on one fd with the given buffer sizes, collecting
the (count, copied bytes) of each call and threading the store. -/
def readSeq : Fs → Int → List Nat → List (Nat × Content) × Fs
  | fs, _, [] => ([], fs)
  | fs, fd, b :: bs =>
    match fs.read fd b with
    | .ok n copied fs' =>
      let r := readSeq fs' fd bs
      ((n, copied) :: r.1, r.2)
    | _ => ([], fs)

/-- A concrete injective path encoding standing in for `FxHasher` in the
concrete instances (only hash equality is semantically relevant). -/
def segCode (s : Seg) : Nat :=
  s.data.foldl (fun h c => h * 257 + c.toNat + 1) 1

/-- Path-level concrete hash (see `segCode`). -/
def pathCode (p : SegPath) : Nat :=
  p.foldl (fun h s => h * 1000003 + segCode s) 0

/-- Concrete store exhibiting two bundled files `x`, `y` under the same
child directory `b` of the queried prefix `a`. -/
def fsC1 : Fs :=
  { trie := [(["a", "b", "x"], [1]), (["a", "b", "y"], [2])]
    inode := pathCode
    fdMap := [] }

/-- State of `fsC1` after `opendir ["a"]` registered the (duplicated) listing under
fd 7. -/
def fsC1open : Fs :=
  { fsC1 with
    fdMap := [(7, .directory (pathCode ["a"]) [["a", "b"], ["a", "b"]])] }

/-- The bundled bytes of `/test/hello.txt` in the concrete end-to-end
store ("Hello"). -/
def helloBytes : Content := [72, 101, 108, 108, 111]

/-- Concrete store mirroring the spec's end-to-end bundle shape:
`/test/hello.txt` and `/test/world.txt` (keys as `Path::iter` produces
them, with the leading `/` segment). -/
def fsTest : Fs :=
  { trie := [(["/", "test", "hello.txt"], helloBytes),
             (["/", "test", "world.txt"], [87, 111])]
    inode := pathCode
    fdMap := [] }

/-- Concrete glue state: virtual root `WD = "/test"`, no working directory
set, store `fsTest`. -/
def stTest : GlueState :=
  { wdPre := "/test", workingDir := none, fs := fsTest }

/-- Concrete store with an open file fd 3 at read offset 1. -/
def fsReadW : Fs :=
  { trie := [], inode := pathCode
    fdMap := [(3, .file [10, 11, 12, 13] 1 99)] }

/-- Concrete store with a directory registered under fd 4. -/
def fsDirW : Fs :=
  { trie := [], inode := pathCode
    fdMap := [(4, .directory 7 [["a", "b"]])] }

/-!
Helper lemmas
-/

theorem fdLookup_fdInsert_self (m : List (Int × FileType)) (fd : Int)
    (ft : FileType) : fdLookup (fdInsert m fd ft) fd = some ft := by
  induction m with
  | nil => simp [fdInsert, fdLookup]
  | cons hd tl ih =>
    obtain ⟨k, v⟩ := hd
    by_cases hk : k = fd
    · simp [fdInsert, fdLookup, hk]
    · simp [fdInsert, fdLookup, hk, ih]

theorem fdLookup_fdInsert_ne (m : List (Int × FileType)) (fd fd' : Int)
    (ft : FileType) (h : fd' ≠ fd) :
    fdLookup (fdInsert m fd ft) fd' = fdLookup m fd' := by
  induction m with
  | nil => simp [fdInsert, fdLookup, Ne.symm h]
  | cons hd tl ih =>
    obtain ⟨k, v⟩ := hd
    by_cases hk : k = fd
    · subst hk
      simp [fdInsert, fdLookup, Ne.symm h]
    · simp [fdInsert, fdLookup, hk, ih]

theorem read_eq_of_lookup_eof (fs : Fs) (fd : Int) (c : Content)
    (off ino b : Nat) (h : fdLookup fs.fdMap fd = some (.file c off ino))
    (hoff : off = c.length) : fs.read fd b = .ok 0 [] fs := by
  simp [Fs.read, h, hoff]

theorem read_eq_of_lookup_mid (fs : Fs) (fd : Int) (c : Content)
    (off ino b : Nat) (h : fdLookup fs.fdMap fd = some (.file c off ino))
    (hoff : off ≠ c.length) :
    fs.read fd b = .ok (min (c.length - off) b)
      ((c.drop off).take (min (c.length - off) b))
      { fs with fdMap :=
          fdInsert fs.fdMap fd (.file c (off + min (c.length - off) b) ino) } := by
  simp [Fs.read, h, hoff]

theorem readSeq_cons_ok (fs fs' : Fs) (fd : Int) (b : Nat) (bs : List Nat)
    (n : Nat) (copied : Content) (h : fs.read fd b = .ok n copied fs') :
    readSeq fs fd (b :: bs) =
      ((n, copied) :: (readSeq fs' fd bs).1, (readSeq fs' fd bs).2) := by
  simp [readSeq, h]

theorem rustDivCeil_512 (n : Nat) : rustDivCeil n 512 = (n + 511) / 512 := by
  unfold rustDivCeil
  by_cases h : n % 512 = 0 <;> simp [h] <;> omega

theorem rustDivCeil_8_mul (m : Nat) :
    rustDivCeil m 8 * 8 = roundUpMult8 m := by
  unfold rustDivCeil roundUpMult8
  by_cases h : m % 8 = 0 <;> simp [h] <;> omega

theorem blocks_formula (n : Nat) :
    rustDivCeil (rustDivCeil n 512) 8 * 8 = roundUpMult8 ((n + 511) / 512) := by
  rw [rustDivCeil_512, rustDivCeil_8_mul]

/-!
Claim theorems
-/

/-- C1 (code bug): directory child enumeration does NOT deduplicate.  The
`uniq_file` set in `Fs::get_file_type_from_path` is keyed on the hash of
the FULL descendant path — which is unique per trie entry — instead of the
truncated child path, so it never filters anything.  With two bundled
files `a/b/x` and `a/b/y`, classifying `a` lists the immediate child
`a/b` twice, and iterating the resulting directory via `opendir`/`readdir`
yields the child `b` twice before the end sentinel, contradicting the
claimed exactly-once enumeration. -/
theorem classify_shared_child_listed_twice :
    getFileTypeFromPath fsC1 ["a"] =
      some (.directory (pathCode ["a"]) [["a", "b"], ["a", "b"]]) ∧
    Fs.opendir fsC1 7 ["a"] = some (⟨7, 0⟩, fsC1open) ∧
    (fsC1open.readdir ⟨7, 0⟩).1 = .entry ⟨pathCode ["a", "b"], dtDIR, "b"⟩ ∧
    (fsC1open.readdir ⟨7, 1⟩).1 = .entry ⟨pathCode ["a", "b"], dtDIR, "b"⟩ ∧
    (fsC1open.readdir ⟨7, 2⟩).1 = .endOfDir :=
  ⟨by decide, rfl, by decide, by decide, by decide⟩

/-- C3 (code bug): `chdir` on a path that classifies as a virtual
directory updates the working-directory state but returns 1, not the POSIX
success value 0 (`inner_chdir` ends in `1`).  Evaluated on the concrete
bundle: `chdir("/test")` lands in the virtual branch, sets the working
directory, and returns 1. -/
theorem chdir_virtual_dir_returns_one :
    chdirFromFs stTest 7 "/test" =
      .ok (1, { stTest with workingDir := some "/test" }) ∧ (1 : Int) ≠ 0 :=
  ⟨rfl, by decide⟩

/-- C5 amended: `Fs::read` on an fd registered as a `Directory` hits the
`todo!()` arm and panics; no Not-Supported error is reported to the
caller. -/
theorem read_directory_fd_panics (fs : Fs) (fd : Int) (ino : Nat)
    (entries : List SegPath) (bufLen : Nat)
    (h : fdLookup fs.fdMap fd = some (.directory ino entries)) :
    fs.read fd bufLen = .panics := by
  simp [Fs.read, h]

/-- C5 counterexample: on the concrete store with a directory under fd 4,
`read(4, ·)` panics instead of returning a Not-Supported error, refuting
the claim that the call does not panic. -/
theorem read_directory_fd_panics_counterexample :
    fsDirW.read 4 8 = ReadResult.panics := rfl

/-- C5 witness for the amended theorem. -/
theorem read_directory_fd_panics_witness :
    fsDirW.read 4 16 = ReadResult.panics :=
  read_directory_fd_panics fsDirW 4 7 [["a", "b"]] 16 rfl

/-- C8 counterexample: the canonicalizer's absolute branch returns the
input verbatim; on `/a/../b` the spec's lexical resolution gives `/b`, but
`expand_kompo_path` returns `/a/../b` unchanged. -/
theorem expand_absolute_not_normalized :
    expandKompoPath (some "/x") "/a/../b" = .ok "/a/../b" ∧
    specCanonAbs "/a/../b" = "/b" ∧ ("/a/../b" : String) ≠ "/b" :=
  ⟨rfl, by decide, by decide⟩

/-- C8 amended: for every absolute input path `P`, the canonicalizer
returns `P` unchanged — `.` and `..` components are NOT resolved and inner
root components survive (only the relative branch canonicalizes against
the working directory). -/
theorem expand_absolute_returns_input (wd : Option String) (p : String)
    (h : isAbsolute p = true) : expandKompoPath wd p = .ok p := by
  simp [expandKompoPath, h]

/-- C8 witness for the amended theorem. -/
theorem expand_absolute_returns_input_witness :
    expandKompoPath (some "/x") "/a/b" = .ok "/a/b" :=
  expand_absolute_returns_input (some "/x") "/a/b" rfl

/-- C2: for an fd registered as a File with content `c` and offset
`off ≤ len`, `read` copies `min(len - off, bufLen)` bytes of `c` starting
at `off`, advances the offset by that count and returns it, leaving every
other registry entry untouched; at end-of-file it returns 0; on an fd
absent from the registry it returns absent. -/
theorem read_file_copies_min_and_advances (fs : Fs) (fd : Int) (c : Content)
    (off ino bufLen : Nat)
    (h : fdLookup fs.fdMap fd = some (.file c off ino))
    (hle : off ≤ c.length) :
    (∃ fs', fs.read fd bufLen =
        .ok (min (c.length - off) bufLen)
          ((c.drop off).take (min (c.length - off) bufLen)) fs' ∧
        fdLookup fs'.fdMap fd =
          some (.file c (off + min (c.length - off) bufLen) ino) ∧
        ∀ fd', fd' ≠ fd → fdLookup fs'.fdMap fd' = fdLookup fs.fdMap fd') ∧
    (off = c.length → fs.read fd bufLen = .ok 0 [] fs) ∧
    (∀ fd₂, fdLookup fs.fdMap fd₂ = none → fs.read fd₂ bufLen = .absent) := by
  refine ⟨?_, ?_, ?_⟩
  · by_cases hoff : off = c.length
    · refine ⟨fs, ?_, ?_, fun _ _ => rfl⟩
      · rw [read_eq_of_lookup_eof fs fd c off ino bufLen h hoff]
        simp [hoff]
      · simpa [hoff] using h
    · refine ⟨_, read_eq_of_lookup_mid fs fd c off ino bufLen h hoff, ?_, ?_⟩
      · exact fdLookup_fdInsert_self ..
      · intro fd' hne
        exact fdLookup_fdInsert_ne _ _ _ _ hne
  · intro hoff
    exact read_eq_of_lookup_eof fs fd c off ino bufLen h hoff
  · intro fd₂ h₂
    simp [Fs.read, h₂]

/-- C2 witness: on the concrete store, `read(3, buffer of 2)` from offset 1
of the 4-byte content returns 2 and the bytes `[11, 12]`. -/
theorem read_file_copies_min_and_advances_witness :
    ∃ fs', fsReadW.read 3 2 = .ok 2 [11, 12] fs' := by
  obtain ⟨⟨fs', h1, -, -⟩, -, -⟩ :=
    read_file_copies_min_and_advances fsReadW 3 [10, 11, 12, 13] 1 99 2 rfl
      (by decide)
  exact ⟨fs', h1⟩

/-- C7: the stat buffer built by `Fs::get_stat_from_file_type` agrees
field-for-field with the spec's description (`specStatOf`): synthetic
device `makedev(2222,0)`, derived inode, `S_IFREG|0444` / `S_IFDIR|0555`,
nlink 1, caller uid/gid, rdev 0, size = content length / 1, blksize 4096,
blocks = ceil(size/512) rounded up to a multiple of 8 for files and 0 for
directories, and zero timestamps. -/
theorem stat_buffer_matches_spec (uid gid : Nat) (ft : FileType) :
    getStatFromFileType uid gid ft = specStatOf uid gid ft := by
  cases ft with
  | file c off ino =>
    have hm : sIFREG ||| sIRUSR ||| sIRGRP ||| sIROTH = sIFREG ||| 0o444 := by
      decide
    have hb := blocks_formula c.length
    simp [getStatFromFileType, specStatOf, hm, hb]
  | directory ino entries =>
    have hm : sIFDIR ||| sIXUSR ||| sIRUSR ||| sIXGRP ||| sIRGRP ||| sIXOTH
        ||| sIROTH = sIFDIR ||| 0o555 := by decide
    simp [getStatFromFileType, specStatOf, hm]

/-- Unfolding helper: `pure` on `Except` is `Except.ok`. -/
theorem exceptPure_eq_ok {α : Type} (a : α) :
    (pure a : Except Unit α) = Except.ok a := rfl

/-- Unfolding helper: `bind` on an `Except.ok`. -/
theorem exceptBind_ok {α β : Type} (a : α) (f : α → Except Unit β) :
    (Except.ok a >>= f : Except Unit β) = f a := rfl

/-- Unfolding helper: `bind` on an `Except.error`. -/
theorem exceptBind_err {α β : Type} (f : α → Except Unit β) :
    (Except.error () >>= f : Except Unit β) = Except.error () := rfl

/-- C4 counterexample: `mkdir` on a virtual path that exists in the store
as a FILE returns 0 (the inner `mkdir` only checks that `stat` succeeds,
not that the target is a directory), refuting the claim that only an
existing directory succeeds.  The real-stat/real-mkdir arguments are
arbitrary and unused, showing the result came from the virtual branch. -/
theorem mkdir_on_virtual_file_returns_zero :
    mkdirFromFs stTest (7, some 9) (5, some 6) "/test/hello.txt" =
      .ok (0, none) ∧
    getFileTypeFromPath stTest.fs (pathIter "/test/hello.txt") =
      some (.file helloBytes 0 (pathCode ["/", "test", "hello.txt"])) :=
  ⟨rfl, by decide⟩

/-- C4 amended: `mkdir` on an absolute path under the virtual-root prefix
returns 0 exactly when the path exists in the store — as a file OR a
directory (read-only semantics without a directory check) — and fails with
`ENOENT` otherwise; a path outside the virtual domain is forwarded to the
real `mkdir`. -/
theorem mkdir_virtual_exists_succeeds (st : GlueState)
    (realStat realMkdir : Int × Option Nat) (p : String)
    (hAbs : isAbsolute p = true) :
    (isUnderKompoWd st p = true →
      ((getFileTypeFromPath st.fs (pathIter p)).isSome = true →
          mkdirFromFs st realStat realMkdir p = .ok (0, none)) ∧
      (getFileTypeFromPath st.fs (pathIter p) = none →
          mkdirFromFs st realStat realMkdir p = .ok (-1, some eNOENT))) ∧
    (isUnderKompoWd st p = false →
      mkdirFromFs st realStat realMkdir p = .ok realMkdir) := by
  refine ⟨fun hu => ⟨fun hsome => ?_, fun hnone => ?_⟩, fun hu => ?_⟩
  · obtain ⟨ft, hft⟩ := Option.isSome_iff_exists.mp hsome
    simp [mkdirFromFs, innerMkdir, statFromFsRet, innerStatRet, hAbs, hu,
      hft, exceptPure_eq_ok, exceptBind_ok]
  · simp [mkdirFromFs, innerMkdir, statFromFsRet, innerStatRet, hAbs, hu,
      hnone, exceptPure_eq_ok, exceptBind_ok]
  · simp [mkdirFromFs, hAbs, hu, exceptPure_eq_ok]

/-- C4 witness for the amended theorem: `mkdir("/test")` on the existing
virtual directory returns 0, and `mkdir("/test/nope")` fails with
`ENOENT`. -/
theorem mkdir_virtual_exists_succeeds_witness :
    mkdirFromFs stTest (7, some 9) (5, some 6) "/test" = .ok (0, none) ∧
    mkdirFromFs stTest (7, some 9) (5, some 6) "/test/nope" =
      .ok (-1, some eNOENT) :=
  ⟨((mkdir_virtual_exists_succeeds stTest (7, some 9) (5, some 6) "/test"
        rfl).1 (by decide)).1 (by decide),
   ((mkdir_virtual_exists_succeeds stTest (7, some 9) (5, some 6) "/test/nope"
        rfl).1 (by decide)).2 (by decide)⟩

/-- C6: `open` with `O_DIRECTORY` on a virtual path (absolute and under the
virtual-root prefix): `ENOENT` when the path is absent from the store,
`ENOTDIR` when it classifies as a File, and the fresh fd (registered as a
Directory) when it classifies as a Directory. -/
theorem open_odirectory_classification (st : GlueState) (uid gid : Nat)
    (newFd realRet : Int) (p : String) (oflag : Nat)
    (hAbs : isAbsolute p = true) (hUnder : isUnderKompoWd st p = true)
    (hFlag : oflag &&& oDIRECTORY = oDIRECTORY) :
    (getFileTypeFromPath st.fs (pathIter p) = none →
        openFromFs st uid gid newFd realRet p oflag =
          .ok (-1, some eNOENT, st)) ∧
    (∀ c off ino, getFileTypeFromPath st.fs (pathIter p) =
          some (.file c off ino) →
        openFromFs st uid gid newFd realRet p oflag =
          .ok (-1, some eNOTDIR, st)) ∧
    (∀ ino entries, getFileTypeFromPath st.fs (pathIter p) =
          some (.directory ino entries) →
        ∃ st', openFromFs st uid gid newFd realRet p oflag =
            .ok (newFd, none, st') ∧
          fdLookup st'.fs.fdMap newFd = some (.directory ino entries)) := by
  refine ⟨fun hnone => ?_, fun c off ino hfile => ?_,
    fun ino entries hdir => ?_⟩
  · simp [openFromFs, innerOpen, Fs.stat, Fs.open, hAbs, hUnder, hFlag,
      hnone, exceptPure_eq_ok]
  · have hmode : ¬ ((sIFREG ||| sIRUSR ||| sIRGRP ||| sIROTH) &&& sIFMT
        = sIFDIR) := by decide
    simp [openFromFs, innerOpen, Fs.stat, getStatFromFileType, hAbs, hUnder,
      hFlag, hfile, hmode, exceptPure_eq_ok]
  · have hmode : (sIFDIR ||| sIXUSR ||| sIRUSR ||| sIXGRP ||| sIRGRP
        ||| sIXOTH ||| sIROTH) &&& sIFMT = sIFDIR := by decide
    refine ⟨⟨st.wdPre, st.workingDir,
      ⟨st.fs.trie, st.fs.inode,
        fdInsert st.fs.fdMap newFd (FileType.directory ino entries)⟩⟩,
      ?_, ?_⟩
    · simp [openFromFs, innerOpen, Fs.stat, Fs.open, getStatFromFileType,
        hAbs, hUnder, hFlag, hdir, hmode, exceptPure_eq_ok]
    · exact fdLookup_fdInsert_self ..

/-- C6 witness: on the concrete bundle, `open("/test", O_DIRECTORY)`
returns the fresh fd 9, `open("/test/hello.txt", O_DIRECTORY)` fails with
`ENOTDIR`, and `open("/test/nope", O_DIRECTORY)` fails with `ENOENT`. -/
theorem open_odirectory_classification_witness :
    (∃ st', openFromFs stTest 0 0 9 7 "/test" oDIRECTORY =
        .ok (9, none, st')) ∧
    openFromFs stTest 0 0 9 7 "/test/hello.txt" oDIRECTORY =
      .ok (-1, some eNOTDIR, stTest) ∧
    openFromFs stTest 0 0 9 7 "/test/nope" oDIRECTORY =
      .ok (-1, some eNOENT, stTest) := by
  refine ⟨?_, ?_, ?_⟩
  · obtain ⟨st', h, -⟩ :=
      (open_odirectory_classification stTest 0 0 9 7 "/test" oDIRECTORY rfl
          (by decide) (by decide)).2.2
        (pathCode ["/", "test"])
        [["/", "test", "hello.txt"], ["/", "test", "world.txt"]] (by decide)
    exact ⟨st', h⟩
  · exact (open_odirectory_classification stTest 0 0 9 7 "/test/hello.txt"
        oDIRECTORY rfl (by decide) (by decide)).2.1 helloBytes 0
      (pathCode ["/", "test", "hello.txt"]) (by decide)
  · exact (open_odirectory_classification stTest 0 0 9 7 "/test/nope"
        oDIRECTORY rfl (by decide) (by decide)).1 (by decide)

/-- C10: with no virtual working directory set and a relative path, the
intercepted `chdir` panics — `chdir_from_fs` expands the path before any
routing decision and the expansion unwraps the absent working directory —
while the other path-taking dispatchers (`open`, `stat`, `lstat`,
`opendir`, `mkdir`) guard the expansion behind a working-directory-is-set
check and never reach the panic (they always produce a result). -/
theorem chdir_relative_no_wd_panics_others_guarded (st : GlueState)
    (p : String) (uid gid : Nat) (newFd realO realC : Int)
    (realStat realLstat realStat2 realMkdir : Int × Option Nat)
    (realDir : Option FsDir) (oflag : Nat)
    (hwd : st.workingDir = none) (hrel : isAbsolute p = false) :
    chdirFromFs st realC p = .error () ∧
    openFromFs st uid gid newFd realO p oflag ≠ .error () ∧
    statFromFsRet st realStat p ≠ .error () ∧
    lstatFromFsRet st realLstat p ≠ .error () ∧
    opendirFromFs st newFd realDir p ≠ .error () ∧
    mkdirFromFs st realStat2 realMkdir p ≠ .error () := by
  refine ⟨?_, ?_, ?_, ?_, ?_, ?_⟩
  · simp [chdirFromFs, expandKompoPath, hwd, hrel, exceptBind_err]
  · by_cases hu : isUnderKompoWd st p <;>
      simp [openFromFs, hwd, hrel, hu, exceptPure_eq_ok]
  · by_cases hu : isUnderKompoWd st p <;>
      simp [statFromFsRet, hwd, hrel, hu, exceptPure_eq_ok]
  · by_cases hu : isUnderKompoWd st p <;>
      simp [lstatFromFsRet, hwd, hrel, hu, exceptPure_eq_ok]
  · by_cases hu : isUnderKompoWd st p
    · rcases hop : st.fs.opendir newFd (pathIter p) with _ | ⟨d, fs'⟩ <;>
        simp [opendirFromFs, hwd, hrel, hu, hop, exceptPure_eq_ok]
    · simp [opendirFromFs, hwd, hrel, hu, exceptPure_eq_ok]
  · by_cases hu : isUnderKompoWd st p
    · by_cases hr : (innerStatRet st.fs p).1 = 0 <;>
        simp [mkdirFromFs, innerMkdir, statFromFsRet, hwd, hrel, hu, hr,
          exceptPure_eq_ok, exceptBind_ok]
    · simp [mkdirFromFs, hwd, hrel, hu, exceptPure_eq_ok]

/-- C10 witness: concrete state with no working directory, relative path
`"foo"`. -/
theorem chdir_relative_no_wd_panics_others_guarded_witness :
    chdirFromFs stTest 0 "foo" = .error () ∧
    openFromFs stTest 0 0 9 7 "foo" 0 ≠ .error () ∧
    statFromFsRet stTest (7, none) "foo" ≠ .error () ∧
    lstatFromFsRet stTest (7, none) "foo" ≠ .error () ∧
    opendirFromFs stTest 9 none "foo" ≠ .error () ∧
    mkdirFromFs stTest (7, none) (5, none) "foo" ≠ .error () :=
  chdir_relative_no_wd_panics_others_guarded stTest "foo" 0 0 9 7 0
    (7, none) (7, none) (7, none) (5, none) none 0 rfl rfl

/-- Flattening consecutive chunks gives the contiguous slice of length
equal to the total of the counts. -/
theorem chunksFrom_flatten (c : Content) :
    ∀ (ns : List Nat) (off : Nat),
      (chunksFrom c off ns).flatten = (c.drop off).take ns.sum
  | [], off => by simp [chunksFrom]
  | n :: ns, off => by
    have ih := chunksFrom_flatten c ns (off + n)
    simp only [chunksFrom, List.flatten_cons, ih, List.sum_cons,
      List.take_add, List.drop_drop]

/-- The per-fd read invariant: starting from a registered File at offset
`off ≤ len`, any sequence of reads returns exactly the consecutive,
non-overlapping chunks of the content starting at `off`, the cumulative
count never exceeds the content length, the registry offset tracks the
cumulative count, and once the buffer sizes total at least the remaining
bytes the cumulative count equals the remainder. -/
theorem readSeq_file_invariant (c : Content) (ino : Nat) (fd : Int) :
    ∀ (bs : List Nat) (fs : Fs) (off : Nat),
      fdLookup fs.fdMap fd = some (.file c off ino) → off ≤ c.length →
      ((readSeq fs fd bs).1.map Prod.snd =
          chunksFrom c off ((readSeq fs fd bs).1.map Prod.fst)) ∧
      off + ((readSeq fs fd bs).1.map Prod.fst).sum ≤ c.length ∧
      fdLookup (readSeq fs fd bs).2.fdMap fd =
        some (.file c (off + ((readSeq fs fd bs).1.map Prod.fst).sum) ino) ∧
      (c.length - off ≤ bs.sum →
        ((readSeq fs fd bs).1.map Prod.fst).sum = c.length - off) := by
  intro bs
  induction bs with
  | nil =>
    intro fs off h hle
    refine ⟨by simp [readSeq, chunksFrom], by simpa [readSeq] using hle,
      by simpa [readSeq] using h, fun hsum => ?_⟩
    simp [readSeq] at hsum ⊢
    omega
  | cons b bs ih =>
    intro fs off h hle
    by_cases hoff : off = c.length
    · have hr := read_eq_of_lookup_eof fs fd c off ino b h hoff
      rw [readSeq_cons_ok fs fs fd b bs 0 [] hr]
      obtain ⟨ih1, ih2, ih3, ih4⟩ := ih fs off h hle
      refine ⟨by simp [chunksFrom, ih1], by simpa using ih2,
        by simpa using ih3, fun _ => ?_⟩
      have hns := ih4 (by omega)
      simp only [List.map_cons, List.sum_cons]
      omega
    · have hr := read_eq_of_lookup_mid fs fd c off ino b h hoff
      set k := min (c.length - off) b with hk
      set fs1 : Fs := { fs with
        fdMap := fdInsert fs.fdMap fd (.file c (off + k) ino) } with hfs1
      rw [readSeq_cons_ok fs fs1 fd b bs k ((c.drop off).take k) hr]
      have hlook : fdLookup fs1.fdMap fd = some (.file c (off + k) ino) :=
        fdLookup_fdInsert_self ..
      have hkle : k ≤ c.length - off := Nat.min_le_left _ _
      have hle1 : off + k ≤ c.length := by omega
      obtain ⟨ih1, ih2, ih3, ih4⟩ := ih fs1 (off + k) hlook hle1
      refine ⟨by simp [chunksFrom, ih1], ?_, ?_, fun hsum => ?_⟩
      · simp only [List.map_cons, List.sum_cons]
        omega
      · simpa [Nat.add_assoc] using ih3
      · simp only [List.map_cons, List.sum_cons] at hsum ⊢
        have hns := ih4 (by omega)
        omega

/-- C9: for every bundled path `p` with content `c`, `open(p)` returns the
fresh fd with the file registered at offset 0, and for ANY sequence of
reads on that fd the copied byte ranges are the consecutive,
non-overlapping chunks of `c` from the start, the cumulative count never
exceeds the file size, and once the buffers total at least the file size
the concatenation of everything read is exactly `c`. -/
theorem open_then_reads_consecutive_and_complete (fs : Fs) (p : SegPath)
    (c : Content) (fd : Int) (hb : exactMatch fs.trie p = some c) :
    ∃ fs₁, fs.open fd p = some (fd, fs₁) ∧
      ∀ bs : List Nat,
        ((readSeq fs₁ fd bs).1.map Prod.snd =
            chunksFrom c 0 ((readSeq fs₁ fd bs).1.map Prod.fst)) ∧
        ((readSeq fs₁ fd bs).1.map Prod.fst).sum ≤ c.length ∧
        (c.length ≤ bs.sum →
          ((readSeq fs₁ fd bs).1.map Prod.snd).flatten = c) := by
  refine ⟨{ fs with
      fdMap := fdInsert fs.fdMap fd (.file c 0 (fs.inode p)) }, ?_, ?_⟩
  · simp [Fs.open, getFileTypeFromPath, hb]
  · intro bs
    have hlook : fdLookup ({ fs with
          fdMap := fdInsert fs.fdMap fd (.file c 0 (fs.inode p)) } : Fs).fdMap
        fd = some (.file c 0 (fs.inode p)) := fdLookup_fdInsert_self ..
    obtain ⟨h1, h2, h3, h4⟩ :=
      readSeq_file_invariant c (fs.inode p) fd bs _ 0 hlook (Nat.zero_le _)
    refine ⟨h1, by simpa using h2, fun hc => ?_⟩
    rw [h1, chunksFrom_flatten]
    have hs := h4 (by omega)
    simp [hs]

/-- C9 witness: on the concrete bundle, opening `/test/hello.txt` under
fd 5 yields a registry whose reads enumerate the 5 bundled bytes. -/
theorem open_then_reads_consecutive_and_complete_witness :
    exactMatch fsTest.trie ["/", "test", "hello.txt"] = some helloBytes ∧
    (∃ fs₁, fsTest.open 5 ["/", "test", "hello.txt"] = some (5, fs₁) ∧
      ∀ bs : List Nat,
        ((readSeq fs₁ 5 bs).1.map Prod.snd =
            chunksFrom helloBytes 0 ((readSeq fs₁ 5 bs).1.map Prod.fst)) ∧
        ((readSeq fs₁ 5 bs).1.map Prod.fst).sum ≤ helloBytes.length ∧
        (helloBytes.length ≤ bs.sum →
          ((readSeq fs₁ 5 bs).1.map Prod.snd).flatten = helloBytes)) :=
  ⟨by decide, open_then_reads_consecutive_and_complete fsTest
    ["/", "test", "hello.txt"] helloBytes 5 (by decide)⟩
